import Mathlib

/-!
# Verification of `Speaker_classification.ipynb`

Shallow embedding, in Lean 4, of the control logic of the speaker
classification notebook: segment sampling (`myDataset.__getitem__`),
batch collation (`collate_batch`), the learning-rate schedule
(`get_cosine_schedule_with_warmup`), the validation pass (`valid`),
the training loop with best-checkpoint selection and periodic saving
(training `main`), and the inference loop (inference `main`).

Mel spectrograms are embedded as lists of frames, a frame being a list
of rationals (the float values of the 40 mel bins); tensor floats are
idealised as `ℚ` (or `ℝ` where the code computes with `math.cos`).
The external Conformer block, gradients and the optimizer are opaque
collaborators, passed in as parameter functions.
-/

/-- A frame of a mel spectrogram: one row of mel-bin values. -/
abbrev Frame : Type := List ℚ

/-- A mel spectrogram: a list of frames (`frames × n_mels`). -/
abbrev Mel : Type := List Frame

/-! ## `myDataset.__getitem__` — segment sampling

Source:
```
if len(mel) > self.segment_len:
  start = random.randint(0, len(mel) - self.segment_len)
  mel = torch.FloatTensor(mel[start:start+self.segment_len])
else:
  mel = torch.FloatTensor(mel)
speaker = torch.FloatTensor([speaker]).long()
return mel, speaker
```
The random draw `start` is made explicit as an argument; its range
`[0, len(mel) - segment_len]` (inclusive, per `random.randint`)
becomes a hypothesis of the theorems. `torch.FloatTensor` of an
existing float array is the identity on values. The Python slice
`mel[start:start+segment_len]` is `(mel.drop start).take segment_len`.
-/

def myDataset_getitem (segment_len : ℕ) (mel : Mel) (speaker : ℤ) (start : ℕ) :
    Mel × ℤ :=
  if segment_len < mel.length then
    ((mel.drop start).take segment_len, speaker)
  else
    (mel, speaker)

/-! ## `collate_batch` — batch assembly

Source:
```
mel, speaker = zip(*batch)
mel = pad_sequence(mel, batch_first=True, padding_value=-20)
return mel, torch.FloatTensor(speaker).long()
```
`torch.nn.utils.rnn.pad_sequence` right-pads every sequence of the
batch to the longest length present, filling with the scalar `-20`
broadcast over the trailing dimension (the `n_mels` mel bins, whose
common width is the `nmels` argument below; `pad_sequence` requires
all trailing dimensions to agree). Speaker ids are small non-negative
integers (< 600), for which the `FloatTensor`/`long` round trip is
exact, so the label component is the identity on the label list.
-/

/-- The padding scalar `-20` (log of a very small energy). -/
def padValue : ℚ := -20

/-- A padding frame: the scalar `-20` broadcast over `nmels` mel bins. -/
def padFrame (nmels : ℕ) : Frame := List.replicate nmels padValue

/-- Embedding of `pad_sequence(mels, batch_first=True, padding_value=-20)`
for batches of `frames × nmels` arrays. -/
def pad_sequence (nmels : ℕ) (mels : List Mel) : List Mel :=
  let maxLen := (mels.map List.length).foldr max 0
  mels.map (fun s => s ++ List.replicate (maxLen - s.length) (padFrame nmels))

def collate_batch (nmels : ℕ) (batch : List (Mel × ℤ)) : List Mel × List ℤ :=
  let mel := batch.map Prod.fst
  let speaker := batch.map Prod.snd
  (pad_sequence nmels mel, speaker)

/-- The length of the longest mel in a batch (the padded length). -/
def batchMaxLen (batch : List (Mel × ℤ)) : ℕ :=
  ((batch.map Prod.fst).map List.length).foldr max 0

lemma le_foldr_max (l : List ℕ) (x : ℕ) (hx : x ∈ l) : x ≤ l.foldr max 0 := by
  induction l with
  | nil => cases hx
  | cons a l ih =>
    rcases List.mem_cons.mp hx with h | h
    · subst h; exact le_max_left _ _
    · exact le_trans (ih h) (le_max_right _ _)

/-- C3: for every feature array of length `L > 0` and configured
`segment_len` `S`, with the random start drawn from `[0, L - S]`, the
sampled training segment has length `min L S`; when `L > S` the segment
is the contiguous slice `[start, start+S)`; when `L ≤ S` the whole
array is returned unchanged. -/
theorem segment_sampler_spec (segment_len start : ℕ) (mel : Mel) (speaker : ℤ)
    (h0 : 0 < mel.length) (hstart : start ≤ mel.length - segment_len) :
    (myDataset_getitem segment_len mel speaker start).1.length
        = min mel.length segment_len ∧
    (mel.length ≤ segment_len → (myDataset_getitem segment_len mel speaker start).1 = mel) ∧
    (segment_len < mel.length → ∀ i, i < segment_len →
      ((myDataset_getitem segment_len mel speaker start).1)[i]? = mel[start + i]?) := by
  unfold myDataset_getitem
  by_cases h : segment_len < mel.length
  · rw [if_pos h]
    refine ⟨?_, fun hle => absurd h (not_lt.mpr hle), fun _ i hi => ?_⟩
    · simp only [List.length_take, List.length_drop]
      omega
    · simp only
      rw [List.getElem?_take, if_pos hi, List.getElem?_drop]
  · rw [if_neg h]
    exact ⟨(min_eq_left (not_lt.mp h)).symm, fun _ => rfl, fun hc => absurd hc h⟩

/-- Witness for `segment_sampler_spec` at a concrete input:
`mel = [[5],[6],[7],[8]]`, `segment_len = 2`, `start = 1`. -/
theorem segment_sampler_spec_witness :
    (0 < ([[5],[6],[7],[8]] : Mel).length ∧
      1 ≤ ([[5],[6],[7],[8]] : Mel).length - 2) ∧
    (myDataset_getitem 2 [[5],[6],[7],[8]] 3 1).1.length
        = min ([[5],[6],[7],[8]] : Mel).length 2 :=
  ⟨⟨by decide, by decide⟩,
    (segment_sampler_spec 2 1 [[5],[6],[7],[8]] 3 (by decide) (by decide)).1⟩

lemma pad_sequence_length (nmels : ℕ) (mels : List Mel) :
    (pad_sequence nmels mels).length = mels.length := by
  simp [pad_sequence]

lemma pad_sequence_mem_length (nmels : ℕ) (mels : List Mel) :
    ∀ m ∈ pad_sequence nmels mels, m.length = (mels.map List.length).foldr max 0 := by
  intro m hm
  simp only [pad_sequence] at hm
  obtain ⟨s, hs, rfl⟩ := List.mem_map.mp hm
  have hle : s.length ≤ (mels.map List.length).foldr max 0 :=
    le_foldr_max _ _ (List.mem_map.mpr ⟨s, hs, rfl⟩)
  simp only [List.length_append, List.length_replicate]
  omega

lemma pad_sequence_getElem_pad (nmels : ℕ) (mels : List Mel) (i j : ℕ) (s : Mel)
    (hi : mels[i]? = some s) (hj1 : s.length ≤ j)
    (hj2 : j < (mels.map List.length).foldr max 0) :
    ∃ row, (pad_sequence nmels mels)[i]? = some row ∧
      row[j]? = some (padFrame nmels) := by
  refine ⟨s ++ List.replicate ((mels.map List.length).foldr max 0 - s.length)
    (padFrame nmels), ?_, ?_⟩
  · simp only [pad_sequence]
    rw [List.getElem?_map, hi]
    rfl
  · rw [List.getElem?_append_right hj1, List.getElem?_replicate, if_pos (by omega)]

/-- C4: for every non-empty batch of `(segment, label)` pairs (with frames of a
common mel-bin width `nmels`, as `pad_sequence` requires), the collated labels
equal the input labels in order and value, the collated batch has one row per
input item, every row is padded to the maximum segment length of the batch, and
for every item `i`, every frame at a position `j` with `l_i ≤ j < maxLen` equals
the all-`(-20)` padding frame. -/
theorem collate_batch_spec (nmels : ℕ) (batch : List (Mel × ℤ))
    (hne : batch ≠ [])
    (hw : ∀ p ∈ batch, ∀ fr ∈ p.1, fr.length = nmels) :
    (collate_batch nmels batch).2 = batch.map Prod.snd ∧
    (collate_batch nmels batch).1.length = batch.length ∧
    (∀ m ∈ (collate_batch nmels batch).1, m.length = batchMaxLen batch) ∧
    (∀ (i j : ℕ) (mi : Mel × ℤ), batch[i]? = some mi → mi.1.length ≤ j →
      j < batchMaxLen batch →
      ∃ row, (collate_batch nmels batch).1[i]? = some row ∧
        row[j]? = some (padFrame nmels)) := by
  refine ⟨rfl, ?_, ?_, ?_⟩
  · rw [show (collate_batch nmels batch).1 = pad_sequence nmels (batch.map Prod.fst)
      from rfl, pad_sequence_length, List.length_map]
  · intro m hm
    exact pad_sequence_mem_length nmels (batch.map Prod.fst) m hm
  · intro i j mi hbi hlo hhi
    refine pad_sequence_getElem_pad nmels (batch.map Prod.fst) i j mi.1 ?_ hlo hhi
    rw [List.getElem?_map, hbi]
    rfl

/-- Witness for `collate_batch_spec`: a batch of two segments with lengths 1
and 2 over 2 mel bins; the shorter item's frame at position 1 is the padding
frame. -/
theorem collate_batch_spec_witness :
    (([([[1, 2]], 7), ([[3, 4], [5, 6]], 9)] : List (Mel × ℤ)) ≠ [] ∧
      (∀ p ∈ ([([[1, 2]], 7), ([[3, 4], [5, 6]], 9)] : List (Mel × ℤ)),
        ∀ fr ∈ p.1, fr.length = 2)) ∧
    (collate_batch 2 [([[1, 2]], 7), ([[3, 4], [5, 6]], 9)]).2
        = ([([[1, 2]], 7), ([[3, 4], [5, 6]], 9)] : List (Mel × ℤ)).map Prod.snd :=
  ⟨⟨by decide, by decide⟩,
    (collate_batch_spec 2 [([[1, 2]], 7), ([[3, 4], [5, 6]], 9)]
      (by decide) (by decide)).1⟩

/-! ## `get_cosine_schedule_with_warmup` — learning-rate schedule

Source (with the default `num_cycles = 0.5`):
```
def lr_lambda(current_step):
  if current_step < num_warmup_steps:
    return float(current_step) / float(max(1, num_warmup_steps))
  progress = float(current_step - num_warmup_steps) / float(
    max(1, num_training_steps - num_warmup_steps))
  return max(0.0, 0.5 * (1.0 + math.cos(math.pi * float(num_cycles) * 2.0 * progress)))
```
Floating-point arithmetic is idealised as real arithmetic; the Python
integer subtractions happen before the `float` casts, hence the `ℤ`
subtraction in the denominator. `LambdaLR` multiplies the optimizer's
base learning rate by this factor, so a factor of `1` is the base rate
and a factor of `0` is rate zero. -/

noncomputable def lr_lambda (num_warmup_steps num_training_steps current_step : ℕ) : ℝ :=
  if current_step < num_warmup_steps then
    (current_step : ℝ) / ((max 1 num_warmup_steps : ℕ) : ℝ)
  else
    max 0 (0.5 * (1 + Real.cos (Real.pi * (0.5 : ℝ) * 2 *
      (((current_step : ℝ) - (num_warmup_steps : ℝ)) /
        (((max 1 ((num_training_steps : ℤ) - (num_warmup_steps : ℤ))) : ℤ) : ℝ)))))

/-- C2: for warmup_steps > 0 and total_steps > warmup_steps, the learning-rate
multiplier is `0` at step `0`, `1` (the base rate) at step `warmup_steps`, `0`
at step `total_steps`, and non-negative at every step of `[0, total_steps]`. -/
theorem lr_schedule_spec (w t : ℕ) (hw : 0 < w) (ht : w < t) :
    lr_lambda w t 0 = 0 ∧
    lr_lambda w t w = 1 ∧
    lr_lambda w t t = 0 ∧
    ∀ s : ℕ, s ≤ t → 0 ≤ lr_lambda w t s := by
  refine ⟨?_, ?_, ?_, ?_⟩
  · unfold lr_lambda
    rw [if_pos hw]
    simp
  · unfold lr_lambda
    rw [if_neg (lt_irrefl w)]
    have h0 : Real.pi * (0.5 : ℝ) * 2 *
        (((w : ℝ) - (w : ℝ)) /
          (((max 1 ((t : ℤ) - (w : ℤ))) : ℤ) : ℝ)) = 0 := by
      rw [sub_self, zero_div, mul_zero]
    rw [h0, Real.cos_zero]
    norm_num
  · unfold lr_lambda
    rw [if_neg (not_lt.mpr (le_of_lt ht))]
    have hden : (max 1 ((t : ℤ) - (w : ℤ))) = (t : ℤ) - (w : ℤ) :=
      max_eq_right (by omega)
    have hprog : ((t : ℝ) - (w : ℝ)) /
        (((max 1 ((t : ℤ) - (w : ℤ))) : ℤ) : ℝ) = 1 := by
      rw [hden]
      push_cast
      apply div_self
      have : (w : ℝ) < (t : ℝ) := by exact_mod_cast ht
      linarith
    rw [hprog]
    have harg : Real.pi * (0.5 : ℝ) * 2 * 1 = Real.pi := by ring
    rw [harg, Real.cos_pi]
    norm_num
  · intro s _
    unfold lr_lambda
    by_cases hs : s < w
    · rw [if_pos hs]
      apply div_nonneg (Nat.cast_nonneg s)
      positivity
    · rw [if_neg hs]
      exact le_max_left 0 _

/-- Witness for `lr_schedule_spec` at the spec's example scenario
`warmup_steps = 10`, `total_steps = 100`: the multiplier reaches the base
rate at the warmup boundary. -/
theorem lr_schedule_spec_witness :
    ((0 : ℕ) < 10 ∧ (10 : ℕ) < 100) ∧ lr_lambda 10 100 10 = 1 :=
  ⟨⟨by norm_num, by norm_num⟩,
    (lr_schedule_spec 10 100 (by norm_num) (by norm_num)).2.1⟩

/-! ## Training `main` — loop, checkpoint selection, persistence

The training loop (training-side `main`) is embedded as a step-indexed
state machine. The opaque collaborators — the loaded initial
checkpoint, the shuffled `DataLoader` epochs, the combined effect of
`loss.backward()` / `optimizer.step()` / `scheduler.step()` on the
parameters, and the mean validation accuracy computed by `valid` — are
parameters of the environment; the control flow (batch drawing with
restart, the `(step+1) % valid_steps` / `(step+1) % save_steps`
triggers, best-checkpoint selection, and the `torch.save` calls) is
embedded from the source.

### Aliasing of `best_state_dict`

`best_state_dict = model.state_dict()` stores an `OrderedDict` whose
tensors are *references to the live parameter tensors* of the module
(PyTorch's `state_dict` is shallow), and `AdamW.step()` updates the
parameters in place. Hence when `torch.save(best_state_dict, ...)`
runs at a later step, the values serialized are the parameters *as of
the save step*, not as of the validation event at which
`best_state_dict` was assigned. The embedding records this faithfully:
the `files` log stores the live parameters at save time, while the
ghost field `bestSnap` records the value the parameters had at the
moment of assignment (what a deep-copied snapshot would have kept),
so the two can be compared. -/

/-- A model as the loop sees it: parameters plus the `nn.Module`
train/eval mode flag (`training`, `True` on construction). -/
structure ModelState (P : Type) where
  params : P
  training : Bool
deriving DecidableEq

/-- Where a `torch.save` call wrote: the rolling `save_path`, or the
step-tagged archive path `./ckpt/<step+1>.ckpt`. -/
inductive SavePath where
  | rolling : SavePath
  | archive : ℕ → SavePath
deriving DecidableEq

/-- Environment of one training run: the opaque collaborators of the loop. -/
structure TrainEnv (P B : Type) where
  /-- `torch.load('model.ckpt')`: the unconditionally loaded starting
  parameters. -/
  init_params : P
  /-- The batches yielded by the `e`-th materialisation `iter(train_loader)`
  of the shuffled training loader (`shuffle=True` reshuffles each time). -/
  reshuffle : ℕ → List B
  /-- Combined effect on the parameters of `model_fn` + `loss.backward()` +
  `optimizer.step()` + `scheduler.step()` + `optimizer.zero_grad()` at a
  given global step, on a given batch. May read the mode flag (dropout
  behaves differently in train and eval mode). -/
  train_step : ℕ → B → ModelState P → P
  /-- Mean validation accuracy over the held-out split as a function of the
  parameters (the `no_grad` loop of `valid` performs no update). -/
  validAccOf : P → ℚ
  valid_steps : ℕ
  save_steps : ℕ

/-- Embedding of `valid(dataloader, model, device)`: `model.eval()`, the
read-only accuracy loop under `torch.no_grad()`, then `model.train()`;
returns the updated model object and the mean accuracy. -/
def valid {P : Type} (validAccOf : P → ℚ) (m : ModelState P) : ModelState P × ℚ :=
  let m1 : ModelState P := { m with training := false }
  let acc : ℚ := validAccOf m1.params
  let m2 : ModelState P := { m1 with training := true }
  (m2, acc)

/-- Embedding of the batch draw of the loop:
```
try:
  batch = next(train_iterator)
except StopIteration:
  train_iterator = iter(train_loader)
  batch = next(train_iterator)
```
Returns the batch, the remaining iterator, and the index of the next
loader materialisation; `none` is an uncaught `StopIteration` from the
freshly restarted loader (possible only when a loader epoch yields no
batches at all). -/
def drawNext {B : Type} (reshuffle : ℕ → List B) (it : List B) (nextEpoch : ℕ) :
    Option (B × List B × ℕ) :=
  match it with
  | b :: rest => some (b, rest, nextEpoch)
  | [] =>
    match reshuffle nextEpoch with
    | b :: rest => some (b, rest, nextEpoch + 1)
    | [] => none

/-- State of the training run after some number of loop iterations. -/
structure TrainState (P B : Type) where
  model : ModelState P
  /-- Remaining batches of `train_iterator`. -/
  it : List B
  /-- Index of the next `iter(train_loader)` materialisation. -/
  nextEpoch : ℕ
  best_accuracy : ℚ
  /-- Ghost snapshot: the parameter values at the moment
  `best_state_dict = model.state_dict()` last ran (`none` iff
  `best_state_dict is None`). -/
  bestSnap : Option P
  /-- Log of `torch.save(best_state_dict, path)` calls: path and the values
  actually serialized (the live parameters, by the aliasing note above). -/
  files : List (SavePath × P)
  /-- An uncaught `StopIteration` aborted the run; the state is frozen. -/
  crashed : Bool

/-- The body of one loop iteration after a successful batch draw:
forward/backward/optimizer/scheduler, then the validation trigger with
best-checkpoint selection, then the save trigger. -/
def iterBody {P B : Type} (env : TrainEnv P B) (step : ℕ) (s : TrainState P B)
    (b : B) (it' : List B) (ep' : ℕ) : TrainState P B :=
  let model1 : ModelState P := { s.model with params := env.train_step step b s.model }
  let v : ModelState P × ℚ × Option P :=
    if (step + 1) % env.valid_steps = 0 then
      let va := valid env.validAccOf model1
      if va.2 > s.best_accuracy then
        (va.1, va.2, some va.1.params)
      else
        (va.1, s.best_accuracy, s.bestSnap)
    else (model1, s.best_accuracy, s.bestSnap)
  let files' : List (SavePath × P) :=
    if (step + 1) % env.save_steps = 0 ∧ v.2.2.isSome = true then
      s.files ++ [(SavePath.rolling, v.1.params), (SavePath.archive (step + 1), v.1.params)]
    else s.files
  { model := v.1, it := it', nextEpoch := ep', best_accuracy := v.2.1,
    bestSnap := v.2.2, files := files', crashed := false }

/-- One iteration of `for step in range(total_steps)`. -/
def loopStep {P B : Type} (env : TrainEnv P B) (step : ℕ) (s : TrainState P B) :
    TrainState P B :=
  if s.crashed then s
  else
    match drawNext env.reshuffle s.it s.nextEpoch with
    | none => { s with crashed := true }
    | some (b, it', ep') => iterBody env step s b it' ep'

/-- The state before the loop starts: parameters loaded from
`model.ckpt`, the first loader materialisation as iterator,
`best_accuracy = -1.0`, `best_state_dict = None`, nothing saved. -/
def initState {P B : Type} (env : TrainEnv P B) : TrainState P B :=
  { model := { params := env.init_params, training := true },
    it := env.reshuffle 0, nextEpoch := 1,
    best_accuracy := -1, bestSnap := none, files := [], crashed := false }

/-- The training run after `n` loop iterations. -/
def trainRun {P B : Type} (env : TrainEnv P B) : ℕ → TrainState P B
  | 0 => initState env
  | n + 1 => loopStep env n (trainRun env n)

lemma drawNext_isSome {B : Type} (reshuffle : ℕ → List B)
    (h : ∀ e, reshuffle e ≠ []) (it : List B) (ep : ℕ) :
    (drawNext reshuffle it ep).isSome = true := by
  unfold drawNext
  cases it with
  | cons b rest => rfl
  | nil =>
    cases hr : reshuffle ep with
    | nil => exact absurd hr (h ep)
    | cons b rest => rfl

lemma trainRun_not_crashed {P B : Type} (env : TrainEnv P B)
    (hB : ∀ e, env.reshuffle e ≠ []) :
    ∀ n, (trainRun env n).crashed = false := by
  intro n
  induction n with
  | zero => rfl
  | succ k ih =>
    show (loopStep env k (trainRun env k)).crashed = false
    unfold loopStep
    rw [ih]
    simp only [Bool.false_eq_true, if_false]
    obtain ⟨x, hx⟩ := Option.isSome_iff_exists.mp
      (drawNext_isSome env.reshuffle hB (trainRun env k).it (trainRun env k).nextEpoch)
    rw [hx]
    obtain ⟨b, it', ep'⟩ := x
    rfl

lemma loopStep_eq_iterBody {P B : Type} (env : TrainEnv P B) (step : ℕ)
    (s : TrainState P B) (hcr : s.crashed = false) (b : B) (it' : List B) (ep' : ℕ)
    (hd : drawNext env.reshuffle s.it s.nextEpoch = some (b, it', ep')) :
    loopStep env step s = iterBody env step s b it' ep' := by
  unfold loopStep
  rw [hcr, hd]
  rfl

lemma iterBody_best_mono {P B : Type} (env : TrainEnv P B) (step : ℕ)
    (s : TrainState P B) (b : B) (it' : List B) (ep' : ℕ) :
    s.best_accuracy ≤ (iterBody env step s b it' ep').best_accuracy := by
  simp only [iterBody]
  split_ifs with h1 h2
  · exact le_of_lt h2
  · exact le_refl _
  · exact le_refl _

lemma loopStep_best_mono {P B : Type} (env : TrainEnv P B) (step : ℕ)
    (s : TrainState P B) :
    s.best_accuracy ≤ (loopStep env step s).best_accuracy := by
  unfold loopStep
  by_cases hc : s.crashed = true
  · rw [if_pos hc]
  · rw [if_neg hc]
    cases hd : drawNext env.reshuffle s.it s.nextEpoch with
    | none => exact le_refl _
    | some x =>
      obtain ⟨b, it', ep'⟩ := x
      exact iterBody_best_mono env step s b it' ep'

lemma iterBody_bestSnap_none {P B : Type} (env : TrainEnv P B) (step : ℕ)
    (s : TrainState P B) (b : B) (it' : List B) (ep' : ℕ)
    (h : (iterBody env step s b it' ep').bestSnap = none) : s.bestSnap = none := by
  simp only [iterBody] at h
  split_ifs at h with h1 h2 <;> simp_all

lemma iterBody_files {P B : Type} (env : TrainEnv P B) (step : ℕ)
    (s : TrainState P B) (b : B) (it' : List B) (ep' : ℕ) :
    (iterBody env step s b it' ep').files = s.files ++
      (if (step + 1) % env.save_steps = 0 ∧
          ((iterBody env step s b it' ep').bestSnap).isSome = true then
        [(SavePath.rolling, (iterBody env step s b it' ep').model.params),
         (SavePath.archive (step + 1), (iterBody env step s b it' ep').model.params)]
      else []) := by
  simp only [iterBody]
  split_ifs <;> simp

lemma iterBody_training {P B : Type} (env : TrainEnv P B) (step : ℕ)
    (s : TrainState P B) (b : B) (it' : List B) (ep' : ℕ)
    (h : s.model.training = true) :
    (iterBody env step s b it' ep').model.training = true := by
  simp only [iterBody]
  split_ifs <;> simp [valid, h]

/-- C5: the in-memory best validation accuracy is monotone along a training
run — after any later loop iteration (hence after any later validation
event) the recorded best accuracy is at least the one recorded after any
earlier iteration. -/
theorem best_accuracy_monotone {P B : Type} (env : TrainEnv P B)
    (n m : ℕ) (h : n ≤ m) :
    (trainRun env n).best_accuracy ≤ (trainRun env m).best_accuracy := by
  induction m with
  | zero =>
    rw [Nat.le_zero.mp h]
  | succ k ih =>
    rcases Nat.eq_or_lt_of_le h with rfl | hlt
    · exact le_refl _
    · exact le_trans (ih (Nat.lt_succ_iff.mp hlt))
        (loopStep_best_mono env k (trainRun env k))

/-- A concrete environment for witnesses of the monotonicity property:
one batch per epoch, parameters incremented each step, constant
validation accuracy, validation every step. -/
def envMono : TrainEnv ℤ Unit where
  init_params := 0
  reshuffle := fun _ => [()]
  train_step := fun _ _ m => m.params + 1
  validAccOf := fun _ => 1
  valid_steps := 1
  save_steps := 1

/-- Witness for `best_accuracy_monotone` at a concrete run of two steps. -/
theorem best_accuracy_monotone_witness :
    (0 : ℕ) ≤ 2 ∧
    (trainRun envMono 0).best_accuracy ≤ (trainRun envMono 2).best_accuracy :=
  ⟨by decide, best_accuracy_monotone envMono 0 2 (by decide)⟩

/-- C6: whenever every materialisation of the training loader yields at
least one batch, drawing the next batch never surfaces an end-of-stream
signal (`StopIteration`) to the loop: every draw succeeds, an exhausted
iterator restarts from the freshly reshuffled loader and yields its first
batch, and no state of the run is ever crashed by exhaustion. -/
theorem infinite_stream_spec {P B : Type} (env : TrainEnv P B)
    (hB : ∀ e, env.reshuffle e ≠ []) :
    (∀ (it : List B) (ep : ℕ), (drawNext env.reshuffle it ep).isSome = true) ∧
    (∀ (ep : ℕ) (b : B) (rest : List B), env.reshuffle ep = b :: rest →
      drawNext env.reshuffle [] ep = some (b, rest, ep + 1)) ∧
    (∀ n, (trainRun env n).crashed = false) := by
  refine ⟨drawNext_isSome env.reshuffle hB, ?_, trainRun_not_crashed env hB⟩
  intro ep b rest h
  unfold drawNext
  rw [h]

/-- A concrete environment for the stream witness: a single-batch loader. -/
def envStream : TrainEnv ℤ Unit where
  init_params := 0
  reshuffle := fun _ => [()]
  train_step := fun _ _ m => m.params
  validAccOf := fun _ => 1
  valid_steps := 1
  save_steps := 1

/-- Witness for `infinite_stream_spec`: drawing from an exhausted iterator
over the one-batch loader succeeds. -/
theorem infinite_stream_spec_witness :
    (∀ e : ℕ, envStream.reshuffle e ≠ []) ∧
    (drawNext envStream.reshuffle [] 0).isSome = true :=
  ⟨fun _ => List.cons_ne_nil _ _,
    (infinite_stream_spec envStream (fun _ => List.cons_ne_nil _ _)).1 [] 0⟩

lemma trainRun_draw_some {P B : Type} (env : TrainEnv P B)
    (hB : ∀ e, env.reshuffle e ≠ []) (n : ℕ) :
    ∃ b it' ep', drawNext env.reshuffle (trainRun env n).it
      (trainRun env n).nextEpoch = some (b, it', ep') := by
  obtain ⟨x, hx⟩ := Option.isSome_iff_exists.mp
    (drawNext_isSome env.reshuffle hB (trainRun env n).it (trainRun env n).nextEpoch)
  obtain ⟨b, it', ep'⟩ := x
  exact ⟨b, it', ep', hx⟩

/-- C7: in a run whose loader always yields at least one batch,
checkpoint persistence never happens while `best_state_dict` is still
`None` (no file exists before a validation improves on the initial best),
and at each loop iteration the save trigger fires exactly when `step+1`
is a multiple of `save_steps` and a best checkpoint exists, writing the
contents of `best_state_dict` both to the rolling path and to the
step-tagged archive path. -/
theorem checkpoint_persistence_spec {P B : Type} (env : TrainEnv P B)
    (hB : ∀ e, env.reshuffle e ≠ []) :
    (∀ n, (trainRun env n).bestSnap = none → (trainRun env n).files = []) ∧
    (∀ step : ℕ, (trainRun env (step + 1)).files =
      (trainRun env step).files ++
        (if (step + 1) % env.save_steps = 0 ∧
            ((trainRun env (step + 1)).bestSnap).isSome = true then
          [(SavePath.rolling, (trainRun env (step + 1)).model.params),
           (SavePath.archive (step + 1), (trainRun env (step + 1)).model.params)]
        else [])) := by
  constructor
  · intro n
    induction n with
    | zero => intro _; rfl
    | succ k ih =>
      obtain ⟨b, it', ep', hd⟩ := trainRun_draw_some env hB k
      have hrw : trainRun env (k + 1) = iterBody env k (trainRun env k) b it' ep' :=
        loopStep_eq_iterBody env k (trainRun env k)
          (trainRun_not_crashed env hB k) b it' ep' hd
      rw [hrw]
      intro hnone
      have hs : (trainRun env k).bestSnap = none :=
        iterBody_bestSnap_none env k (trainRun env k) b it' ep' hnone
      rw [iterBody_files, ih hs, hnone]
      simp
  · intro step
    obtain ⟨b, it', ep', hd⟩ := trainRun_draw_some env hB step
    have hrw : trainRun env (step + 1) = iterBody env step (trainRun env step) b it' ep' :=
      loopStep_eq_iterBody env step (trainRun env step)
        (trainRun_not_crashed env hB step) b it' ep' hd
    rw [hrw]
    exact iterBody_files env step (trainRun env step) b it' ep'

/-- A concrete environment for the persistence witness: validation every
step, saving every second step. -/
def envSave : TrainEnv ℤ Unit where
  init_params := 0
  reshuffle := fun _ => [()]
  train_step := fun _ _ m => m.params + 1
  validAccOf := fun _ => 1
  valid_steps := 1
  save_steps := 2

/-- Witness for `checkpoint_persistence_spec` on `envSave`: before any
best exists nothing is on disk, and the step-2 iteration appends the
rolling and archive files. -/
theorem checkpoint_persistence_spec_witness :
    (∀ e : ℕ, envSave.reshuffle e ≠ []) ∧
    ((trainRun envSave 0).bestSnap = none → (trainRun envSave 0).files = []) ∧
    (trainRun envSave 2).files =
      (trainRun envSave 1).files ++
        (if (1 + 1) % envSave.save_steps = 0 ∧
            ((trainRun envSave 2).bestSnap).isSome = true then
          [(SavePath.rolling, (trainRun envSave 2).model.params),
           (SavePath.archive (1 + 1), (trainRun envSave 2).model.params)]
        else []) :=
  ⟨fun _ => List.cons_ne_nil _ _,
    (checkpoint_persistence_spec envSave (fun _ => List.cons_ne_nil _ _)).1 0,
    (checkpoint_persistence_spec envSave (fun _ => List.cons_ne_nil _ _)).2 1⟩

/-- C8: a validation pass mutates no parameter (`valid` returns the model
with `params` untouched), and restores the train-mode flag whenever it was
set on entry (`model.train()` runs at the end of `valid`); moreover in the
training run the model is in train mode at every iteration (the flag is
`True` on construction and every loop phase leaves it `True`), so every
in-run validation pass returns the flag exactly as it found it and the
next training step sees the very state it would have seen without the
validation. -/
theorem validation_frame_spec {P B : Type} (env : TrainEnv P B) :
    (∀ (f : P → ℚ) (m : ModelState P), (valid f m).1.params = m.params) ∧
    (∀ (f : P → ℚ) (m : ModelState P), m.training = true →
      (valid f m).1.training = m.training) ∧
    (∀ n, (trainRun env n).model.training = true) := by
  refine ⟨fun f m => rfl, fun f m h => by rw [h]; rfl, ?_⟩
  intro n
  induction n with
  | zero => rfl
  | succ k ih =>
    show (loopStep env k (trainRun env k)).model.training = true
    unfold loopStep
    by_cases hc : (trainRun env k).crashed = true
    · rw [if_pos hc]
      exact ih
    · rw [if_neg hc]
      cases hd : drawNext env.reshuffle (trainRun env k).it (trainRun env k).nextEpoch with
      | none => exact ih
      | some x =>
        obtain ⟨b, it', ep'⟩ := x
        exact iterBody_training env k (trainRun env k) b it' ep' ih

/-- A concrete environment for the validation-frame witness. -/
def envValid : TrainEnv ℤ Unit where
  init_params := 0
  reshuffle := fun _ => [()]
  train_step := fun _ _ m => m.params + 1
  validAccOf := fun _ => 1
  valid_steps := 2
  save_steps := 2

/-- Witness for `validation_frame_spec`: on a model in train mode the pass
returns the flag as found, and the run is in train mode at step 3. -/
theorem validation_frame_spec_witness :
    (({ params := (5 : ℤ), training := true } : ModelState ℤ).training = true) ∧
    (valid (fun _ => (1 : ℚ))
        ({ params := (5 : ℤ), training := true } : ModelState ℤ)).1.training
      = ({ params := (5 : ℤ), training := true } : ModelState ℤ).training ∧
    (trainRun envValid 3).model.training = true :=
  ⟨rfl,
    (validation_frame_spec envValid).2.1 (fun _ => (1 : ℚ))
      ({ params := (5 : ℤ), training := true } : ModelState ℤ) rfl,
    (validation_frame_spec envValid).2.2 3⟩

/-- A concrete run exhibiting the `best_state_dict` aliasing: parameters
increase by 1 each optimizer step, validation fires every step with
constant accuracy 1 (so the best checkpoint is recorded at the first
validation, when the parameters are 1), and saving fires at step 2 (when
the live parameters are already 2). -/
def envAlias : TrainEnv ℤ Unit where
  init_params := 0
  reshuffle := fun _ => [()]
  train_step := fun _ _ m => m.params + 1
  validAccOf := fun _ => 1
  valid_steps := 1
  save_steps := 2

/-- C1 (refuted on the code): in `envAlias` the best-so-far checkpoint was
recorded when the parameters were `1` (the ghost snapshot `bestSnap`),
but the files persisted at the step-2 save hold `2` — the live parameter
values at save time, mutated by the optimizer step taken after the best
validation — so the persisted checkpoint is *not* a snapshot of the
parameters at the best validation event. This follows the actual PyTorch
semantics of the source: `model.state_dict()` returns references to the
live parameter tensors and `AdamW.step()` updates them in place, so
`torch.save(best_state_dict, ...)` serializes the current values. -/
theorem best_checkpoint_not_snapshot :
    (trainRun envAlias 2).bestSnap = some 1 ∧
    (trainRun envAlias 2).files =
      [(SavePath.rolling, 2), (SavePath.archive 2, 2)] ∧
    ¬ ((2 : ℤ) = 1) := by
  refine ⟨by decide, by decide, by decide⟩

/-! ## Inference — dataset, collation, and the results table

`InferenceDataset.__getitem__` loads the *full* feature array of the
utterance (there is no segment sampling on the inference path) and
returns it with its feature-path string, so an inference utterance is
embedded directly as a `(feat_path, mel)` pair. The inference
`DataLoader` uses `batch_size=1, shuffle=False, drop_last=False`, so
the loader yields one singleton batch per utterance, in input order.
`torch.argmax` returns the index of the first maximal value. -/

/-- `outs.argmax(1)` on one row: index of the first maximal logit,
tracked by a running best index/value. -/
def argmaxFrom : ℕ → ℕ → ℚ → List ℚ → ℕ
  | _, bi, _, [] => bi
  | i, bi, bv, x :: xs =>
    if bv < x then argmaxFrom (i + 1) i x xs else argmaxFrom (i + 1) bi bv xs

def argmax : List ℚ → ℕ
  | [] => 0
  | x :: xs => argmaxFrom 1 0 x xs

/-- Embedding of `inference_collate_batch`:
`feat_paths, mels = zip(*batch); return feat_paths, torch.stack(mels)`. -/
def inference_collate_batch (batch : List (String × Mel)) : List String × List Mel :=
  (batch.map Prod.fst, batch.map Prod.snd)

/-- The batches yielded by the inference loader:
`batch_size=1, shuffle=False, drop_last=False` over the utterance list. -/
def inferBatches (utts : List (String × Mel)) : List (List (String × Mel)) :=
  utts.map (fun u => [u])

/-- Embedding of the inference `main` results loop:
```
results = [["Id", "Category"]]
for feat_paths, mels in tqdm(dataloader):
  with torch.no_grad():
    outs = model(mels)
    preds = outs.argmax(1).cpu().numpy()
    for feat_path, pred in zip(feat_paths, preds):
      results.append([feat_path, mapping["id2speaker"][str(pred)]])
```
`model` is the per-item logits function (the network maps each item of
a stacked batch independently) and `id2speaker` embeds the lookup
`mapping["id2speaker"][str(pred)]`. -/
def inference_main (id2speaker : ℕ → String) (model : Mel → List ℚ)
    (utts : List (String × Mel)) : List (List String) :=
  (inferBatches utts).foldl
    (fun results batch =>
      let fm := inference_collate_batch batch
      let outs := fm.2.map model
      let preds := outs.map argmax
      results ++ (fm.1.zip preds).map (fun fp => [fp.1, id2speaker fp.2]))
    [["Id", "Category"]]

/-- C9: the results table is the header row `["Id","Category"]` followed
by exactly one row per utterance, in input order, whose `Id` is the
utterance's feature path and whose `Category` is the speaker name for the
arg-max logit of the encoder run on the full, unsegmented feature array. -/
theorem inference_results_spec (id2speaker : ℕ → String) (model : Mel → List ℚ)
    (utts : List (String × Mel)) :
    inference_main id2speaker model utts =
      ["Id", "Category"] ::
        utts.map (fun u => [u.1, id2speaker (argmax (model u.2))]) := by
  have key : ∀ (us : List (String × Mel)) (acc : List (List String)),
      (inferBatches us).foldl
        (fun results batch =>
          let fm := inference_collate_batch batch
          let outs := fm.2.map model
          let preds := outs.map argmax
          results ++ (fm.1.zip preds).map (fun fp => [fp.1, id2speaker fp.2]))
        acc
      = acc ++ us.map (fun u => [u.1, id2speaker (argmax (model u.2))]) := by
    intro us
    induction us with
    | nil => intro acc; simp [inferBatches]
    | cons u us ih =>
      intro acc
      rw [show inferBatches (u :: us) = [u] :: inferBatches us from rfl,
        List.foldl_cons, ih]
      simp [inference_collate_batch]
  exact key utts [["Id", "Category"]]

/-! ## `Classifier` — the model head

`Classifier.__init__(self, d_model=320, n_spks=600, dropout=0.4)` builds
`prenet = nn.Linear(40, d_model)`, the external `ConformerBlock`, and
`pred_layer = nn.Sequential(nn.Linear(d_model, 600))` — the literal
`600`, not `n_spks`. A linear layer is embedded as its weight matrix
(one row per output feature) and bias vector; the Conformer block is an
opaque collaborator. `forward` projects each frame through `prenet`,
applies the conformer (the `permute`/`transpose` calls only shuffle the
layout), mean-pools over the length dimension, and applies
`pred_layer`. -/

def dot (w v : List ℚ) : ℚ := ((w.zip v).map (fun p => p.1 * p.2)).sum

structure LinearLayer where
  weight : List (List ℚ)
  bias : List ℚ

def LinearLayer.apply (L : LinearLayer) (v : List ℚ) : List ℚ :=
  (L.weight.zip L.bias).map (fun rb => dot rb.1 v + rb.2)

/-- `nn.Linear(inDim, outDim)` with abstract (trained) weights and biases. -/
def mkLinear (inDim outDim : ℕ) (w : ℕ → ℕ → ℚ) (b : ℕ → ℚ) : LinearLayer where
  weight := (List.range outDim).map (fun i => (List.range inDim).map (w i))
  bias := (List.range outDim).map b

structure Classifier where
  d_model : ℕ
  n_spks : ℕ
  prenet : LinearLayer
  conformer : List (List ℚ) → List (List ℚ)
  pred_layer : LinearLayer

/-- Embedding of `Classifier.__init__(d_model, n_spks, dropout)`; the
weight/bias functions and the conformer block are abstract parameters. -/
def Classifier.init (d_model n_spks : ℕ) (pw : ℕ → ℕ → ℚ) (pb : ℕ → ℚ)
    (conf : List (List ℚ) → List (List ℚ)) (qw : ℕ → ℕ → ℚ) (qb : ℕ → ℚ) :
    Classifier where
  d_model := d_model
  n_spks := n_spks
  prenet := mkLinear 40 d_model pw pb
  conformer := conf
  pred_layer := mkLinear d_model 600 qw qb

/-- `out.mean(dim=1)` after the transpose back: the mean over frames of
each of the `d` feature coordinates. -/
def meanPool (d : ℕ) (frames : List (List ℚ)) : List ℚ :=
  (List.range d).map (fun j => ((frames.map (fun f => f.getD j 0)).sum) / frames.length)

/-- Embedding of `Classifier.forward(self, mels)` for one utterance. -/
def Classifier.forward (c : Classifier) (mels : Mel) : List ℚ :=
  let out1 := mels.map c.prenet.apply
  let out2 := c.conformer out1
  let stats := meanPool c.d_model out2
  c.pred_layer.apply stats

lemma mkLinear_apply_length (inDim outDim : ℕ) (w : ℕ → ℕ → ℚ) (b : ℕ → ℚ)
    (v : List ℚ) : ((mkLinear inDim outDim w b).apply v).length = outDim := by
  simp [mkLinear, LinearLayer.apply]

lemma argmaxFrom_lt (xs : List ℚ) : ∀ (i bi : ℕ) (bv : ℚ) (n : ℕ),
    bi < n → i + xs.length ≤ n → argmaxFrom i bi bv xs < n := by
  induction xs with
  | nil =>
    intro i bi bv n h1 _
    simpa [argmaxFrom] using h1
  | cons x xs ih =>
    intro i bi bv n h1 h2
    simp only [List.length_cons] at h2
    simp only [argmaxFrom]
    split_ifs with h
    · exact ih (i + 1) i x n (by omega) (by omega)
    · exact ih (i + 1) bi bv n h1 (by omega)

lemma argmax_lt_length (l : List ℚ) (h : l ≠ []) : argmax l < l.length := by
  cases l with
  | nil => exact absurd rfl h
  | cons x xs =>
    simp only [argmax, List.length_cons]
    exact argmaxFrom_lt xs 1 0 x (xs.length + 1) (by omega) (by omega)

/-- C10 (implicit): whatever `n_spks` is passed to the constructor, the
classification head emits exactly 600 logits per input — so the arg-max
predicted id always lies in `[0, 600)`, independent of the real speaker
count. -/
theorem classifier_head_dim_spec (d_model n_spks : ℕ) (pw : ℕ → ℕ → ℚ)
    (pb : ℕ → ℚ) (conf : List (List ℚ) → List (List ℚ)) (qw : ℕ → ℕ → ℚ)
    (qb : ℕ → ℚ) (mels : Mel) :
    ((Classifier.init d_model n_spks pw pb conf qw qb).forward mels).length = 600 ∧
    argmax ((Classifier.init d_model n_spks pw pb conf qw qb).forward mels) < 600 := by
  have hlen : ((Classifier.init d_model n_spks pw pb conf qw qb).forward mels).length
      = 600 := by
    simp only [Classifier.forward, Classifier.init]
    exact mkLinear_apply_length _ _ _ _ _
  refine ⟨hlen, ?_⟩
  have hne : (Classifier.init d_model n_spks pw pb conf qw qb).forward mels ≠ [] := by
    intro hc
    rw [hc] at hlen
    simp at hlen
  have := argmax_lt_length _ hne
  rwa [hlen] at this
